import Mathlib

/-!
# Pomoduru: timer state machine and scheduler

A shallow embedding of `internal/timer/timer.go`, `internal/timer/scheduler.go`
and the `Config` record of `internal/config/config.go`, followed by theorems
about the embedded functions.

Conventions of the embedding

* `time.Duration` is a signed 64-bit count of nanoseconds.  It is an `Int`;
  the places where Go computes on durations (`-` in `Start` and in
  `GetRemainingTime`) wrap explicitly with `wrap64`, and `time.Since`
  saturates as `Time.Sub` does.
* `time.Time` is an `Int`: nanoseconds since Go's zero time.  Every method that
  reads the clock (`time.Now()`, `time.Since`) takes the instant `now` of the
  call as an explicit argument; a method body runs at one instant.
* Side effects (the observer callback, `exec.Command(..).Run()`,
  `time.AfterFunc`, `time.Sleep`) are returned as a list of `Effect`s in
  program order.
* `onStateChange` is a nilable function value; the embedding keeps whether it is
  non-nil, and a call of it is the effect `Effect.stateChange`.  The callback
  itself does not call back into the timer (the one in `internal/ui` is empty).
* The pointers `*config.Config` and `*Timer` are non-nil and the configuration
  is not written after construction, so both are plain values.
* Methods and callbacks run one at a time; interleavings are sequences of
  `Action`s at arbitrary instants.
* `time.Parse("15:04", ·)` of the Go standard library is modelled by
  `parseClock`, following `getnum` and `skip` of package time.
* Timed runs keep the callbacks requested through `time.AfterFunc` in a queue
  (`World`).  `World.play` lets a pending callback run at any instant from its
  due instant on, in any order, since Go only promises that a callback runs no
  earlier than it is due and fixes no order among callbacks due together.
-/

namespace Pomoduru

/-! ## Time -/

/-- Go's `time.Duration`: nanoseconds, an int64. -/
abbrev Duration := Int

/-- Go's `time.Time` as nanoseconds since the zero time. -/
abbrev Time := Int

/-- The constant `time.Second`. -/
def Second : Duration := 1000000000

/-- The constant `time.Minute`. -/
def Minute : Duration := 60 * Second

/-- The constant `time.Hour`. -/
def Hour : Duration := 60 * Minute

/-- The least int64, `minDuration` of package time. -/
def minDuration : Duration := -9223372036854775808

/-- The greatest int64, `maxDuration` of package time. -/
def maxDuration : Duration := 9223372036854775807

/-- Two's-complement wrap-around of an int64 result. -/
def wrap64 (x : Int) : Duration :=
  (x + 9223372036854775808) % 18446744073709551616 - 9223372036854775808

/-- The call `time.Since(t)` made at instant `now`: the difference, saturated to
the int64 range. -/
def Since (t now : Time) : Duration :=
  if now - t < minDuration then minDuration
  else if maxDuration < now - t then maxDuration
  else now - t

/-! ## Configuration (`internal/config/config.go`) -/

/-- The record `config.Config`. -/
structure Config where
  WorkDuration : Duration
  BreakDuration : Duration
  WarningTime : Duration
  ExtendDuration : Duration
  AlwaysOn : Bool
  ScheduleEnabled : Bool
  ScheduleStart : String
  ScheduleEnd : String
  deriving DecidableEq, Repr

/-- The function `config.DefaultConfig`. -/
def DefaultConfig : Config :=
  { WorkDuration := 50 * Minute
    BreakDuration := 10 * Minute
    WarningTime := 5 * Minute
    ExtendDuration := 5 * Minute
    AlwaysOn := false
    ScheduleEnabled := false
    ScheduleStart := "09:00"
    ScheduleEnd := "18:00" }

/-- A valid configuration: the four durations are positive int64 values and the
warning lead is shorter than the work period. -/
def Config.Valid (c : Config) : Prop :=
  0 < c.WorkDuration ∧ c.WorkDuration ≤ maxDuration ∧
  0 < c.BreakDuration ∧ c.BreakDuration ≤ maxDuration ∧
  0 < c.WarningTime ∧ c.WarningTime ≤ maxDuration ∧
  0 < c.ExtendDuration ∧ c.ExtendDuration ≤ maxDuration ∧
  c.WarningTime < c.WorkDuration

instance (c : Config) : Decidable c.Valid := by
  unfold Config.Valid; infer_instance

/-! ## Timer (`internal/timer/timer.go`) -/

/-- The enumeration `State`, in the order of its `iota` block. -/
inductive State where
  | StateIdle
  | StateWorking
  | StateWarning
  | StateBreak
  | StateExtended
  | StateSuspended
  deriving DecidableEq, Repr

open State

/-- The methods handed to `time.AfterFunc`. -/
inductive Handler where
  | handleWarning
  | handleWorkComplete
  | handleExtendedWorkComplete
  | startBreak
  | handleBreakComplete
  deriving DecidableEq, Repr

/-- The three external commands run through `exec.Command(..).Run()`. -/
inductive Exec where
  /-- The command `notify-send Pomoduru` with the fixed text announcing sleep in
  5 minutes, in `handleWarning`. -/
  | notifyWarning
  /-- The command `notify-send Pomoduru` with the time-is-up text, in
  `suspendSystem`. -/
  | notifyTimesUp
  /-- The command `systemctl suspend -i`. -/
  | systemctlSuspend
  deriving DecidableEq, Repr

/-- Observable side effects, in program order. -/
inductive Effect where
  /-- A call `t.onStateChange(s, d)` of the registered callback. -/
  | stateChange (s : State) (d : Duration)
  /-- A call `exec.Command(..).Run()`. -/
  | exec (c : Exec)
  /-- A call `time.AfterFunc(d, h)`. -/
  | afterFunc (d : Duration) (h : Handler)
  /-- A call `time.Sleep(d)`. -/
  | sleep (d : Duration)
  deriving DecidableEq, Repr

/-- The record `Timer`.  The field `onStateChange` is `true` when the callback
is non-nil. -/
structure Timer where
  config : Config
  state : State
  startTime : Time
  extendUsed : Bool
  onStateChange : Bool
  deriving DecidableEq, Repr

/-- A timer after a method call together with the effects of the call. -/
structure Outcome where
  timer : Timer
  effects : List Effect
  deriving DecidableEq, Repr

/-- The constructor `NewTimer`: idle, zero start time, no callback. -/
def NewTimer (cfg : Config) : Timer :=
  { config := cfg, state := StateIdle, startTime := 0, extendUsed := false,
    onStateChange := false }

/-- The method `SetStateChangeCallback` with a non-nil callback. -/
def Timer.SetStateChangeCallback (t : Timer) : Timer :=
  { t with onStateChange := true }

/-- The guarded call `if t.onStateChange != nil { t.onStateChange(t.state, d) }`. -/
def Timer.emit (t : Timer) (d : Duration) : List Effect :=
  if t.onStateChange then [Effect.stateChange t.state d] else []

/-- The method `Start`, called at instant `now`. -/
def Timer.Start (t : Timer) (now : Time) : Outcome :=
  let t1 := { t with state := StateWorking, startTime := now, extendUsed := false }
  let warningDuration := wrap64 (t1.config.WorkDuration - t1.config.WarningTime)
  { timer := t1
    effects := t1.emit t1.config.WorkDuration ++
      [Effect.afterFunc warningDuration Handler.handleWarning,
       Effect.afterFunc t1.config.WorkDuration Handler.handleWorkComplete] }

/-- The method `Extend`: the returned boolean and the outcome. -/
def Timer.Extend (t : Timer) : Bool × Outcome :=
  if t.extendUsed || t.state != StateWarning then
    (false, { timer := t, effects := [] })
  else
    let t1 := { t with extendUsed := true, state := StateExtended }
    (true,
      { timer := t1
        effects := Effect.afterFunc t1.config.ExtendDuration Handler.handleExtendedWorkComplete ::
          t1.emit t1.config.ExtendDuration })

/-- The method `Stop`. -/
def Timer.Stop (t : Timer) : Outcome :=
  let t1 := { t with state := StateIdle, extendUsed := false }
  { timer := t1, effects := t1.emit 0 }

/-- The method `GetState`. -/
def Timer.GetState (t : Timer) : State := t.state

/-- The method `GetRemainingTime`, called at instant `now`.  In `StateSuspended`
no case of the switch matches and `totalDuration` keeps its zero value. -/
def Timer.GetRemainingTime (t : Timer) (now : Time) : Duration :=
  if t.state = StateIdle then 0
  else
    let totalDuration : Duration :=
      match t.state with
      | StateWorking | StateWarning => t.config.WorkDuration
      | StateExtended => t.config.ExtendDuration
      | StateBreak => t.config.BreakDuration
      | _ => 0
    let elapsed := Since t.startTime now
    wrap64 (totalDuration - elapsed)

/-- The method `ExtendUsed`. -/
def Timer.ExtendUsed (t : Timer) : Bool := t.extendUsed

/-- The method `handleWarning`. -/
def Timer.handleWarning (t : Timer) : Outcome :=
  if t.state = StateWorking then
    let t1 := { t with state := StateWarning }
    { timer := t1
      effects := Effect.exec Exec.notifyWarning :: t1.emit t1.config.WarningTime }
  else
    { timer := t, effects := [] }

/-- The method `suspendSystem`. -/
def Timer.suspendSystem (t : Timer) : Outcome :=
  let t1 := { t with state := StateSuspended }
  { timer := t1
    effects := t1.emit 0 ++
      [Effect.exec Exec.notifyTimesUp, Effect.exec Exec.systemctlSuspend,
       Effect.afterFunc Second Handler.startBreak] }

/-- The method `handleWorkComplete`. -/
def Timer.handleWorkComplete (t : Timer) : Outcome :=
  if t.state = StateWorking ∨ t.state = StateWarning then t.suspendSystem
  else { timer := t, effects := [] }

/-- The method `handleExtendedWorkComplete`. -/
def Timer.handleExtendedWorkComplete (t : Timer) : Outcome :=
  if t.state = StateExtended then t.suspendSystem
  else { timer := t, effects := [] }

/-- The method `startBreak`, called at instant `now`. -/
def Timer.startBreak (t : Timer) (now : Time) : Outcome :=
  let t1 := { t with state := StateBreak, startTime := now }
  { timer := t1
    effects := t1.emit t1.config.BreakDuration ++
      [Effect.afterFunc t1.config.BreakDuration Handler.handleBreakComplete] }

/-- The method `handleBreakComplete`, called at instant `now`. -/
def Timer.handleBreakComplete (t : Timer) (now : Time) : Outcome :=
  if t.state = StateBreak then
    if t.config.AlwaysOn then t.Start now else t.Stop
  else { timer := t, effects := [] }

/-- Running the delayed callback `h` at instant `now`. -/
def Timer.fire (t : Timer) (now : Time) : Handler → Outcome
  | Handler.handleWarning => t.handleWarning
  | Handler.handleWorkComplete => t.handleWorkComplete
  | Handler.handleExtendedWorkComplete => t.handleExtendedWorkComplete
  | Handler.startBreak => t.startBreak now
  | Handler.handleBreakComplete => t.handleBreakComplete now

/-! ## Reading a list of effects -/

/-- The state-change notifications delivered to the callback, in order. -/
def stateChanges (es : List Effect) : List (State × Duration) :=
  es.filterMap fun e =>
    match e with
    | Effect.stateChange s d => some (s, d)
    | _ => none

/-- The external commands run, in order. -/
def execs (es : List Effect) : List Exec :=
  es.filterMap fun e =>
    match e with
    | Effect.exec c => some c
    | _ => none

/-- The delayed callbacks requested through `time.AfterFunc`, each with its
delay, in order. -/
def scheduled (es : List Effect) : List (Duration × Handler) :=
  es.filterMap fun e =>
    match e with
    | Effect.afterFunc d h => some (d, h)
    | _ => none

/-- The instant at which a callback requested at `now` with delay `d` is due:
`time.AfterFunc` runs it at once when `d` is not positive. -/
def dueAt (now : Time) (d : Duration) : Time :=
  if d ≤ 0 then now else now + d

/-- The delayed callbacks requested at instant `now`, each with the instant at
which it is due. -/
def scheduledAt (now : Time) (es : List Effect) : List (Time × Handler) :=
  (scheduled es).map fun p => (dueAt now p.1, p.2)

/-! ## Sequences of commands and callback firings -/

/-- One thing that can happen to a timer: a command of its public surface or
the firing of a delayed callback. -/
inductive Action where
  | Start
  | Stop
  | Extend
  | fire (h : Handler)
  deriving DecidableEq, Repr

/-- What one action did: the outcome, whether it was an `Extend()` that
returned true, and whether the body of `Start()` ran (called directly or from
`handleBreakComplete` in always-on mode). -/
structure Step where
  timer : Timer
  effects : List Effect
  extended : Bool
  started : Bool
  deriving DecidableEq, Repr

/-- Performing one action at instant `now`. -/
def Timer.step (t : Timer) (now : Time) : Action → Step
  | Action.Start =>
      { timer := (t.Start now).timer, effects := (t.Start now).effects,
        extended := false, started := true }
  | Action.Stop =>
      { timer := t.Stop.timer, effects := t.Stop.effects,
        extended := false, started := false }
  | Action.Extend =>
      { timer := t.Extend.2.timer, effects := t.Extend.2.effects,
        extended := t.Extend.1, started := false }
  | Action.fire h =>
      { timer := (t.fire now h).timer, effects := (t.fire now h).effects,
        extended := false,
        started := decide (h = Handler.handleBreakComplete) &&
          decide (t.state = StateBreak) && t.config.AlwaysOn }

/-- Performing a sequence of timed actions in order; one `Step` per action. -/
def Timer.trace (t : Timer) : List (Time × Action) → List Step
  | [] => []
  | (now, a) :: rest => t.step now a :: Timer.trace (t.step now a).timer rest

/-- The timer reached after a sequence of timed actions. -/
def Timer.after (t : Timer) : List (Time × Action) → Timer
  | [] => t
  | (now, a) :: rest => Timer.after (t.step now a).timer rest

/-- Number of `Extend()` calls of a trace that returned true. -/
def extendCount (tr : List Step) : Nat :=
  (tr.filter fun s => s.extended).length

/-- Number of steps of a trace in which the body of `Start()` ran. -/
def startCount (tr : List Step) : Nat :=
  (tr.filter fun s => s.started).length

/-! ## Scheduler (`internal/timer/scheduler.go`) -/

/-- The byte test `isDigit` of package time. -/
def isDigit (c : Char) : Bool :=
  decide (48 ≤ c.toNat) && decide (c.toNat ≤ 57)

/-- The helper `getnum(s, fixed)` of package time: one or two leading decimal
digits (exactly two when `fixed`), and the rest of the input. -/
def getnum (s : List Char) (fixed : Bool) : Option (Nat × List Char) :=
  match s with
  | [] => none
  | c0 :: rest =>
    if isDigit c0 then
      match rest with
      | [] => if fixed then none else some (c0.toNat - 48, rest)
      | c1 :: rest2 =>
        if isDigit c1 then some ((c0.toNat - 48) * 10 + (c1.toNat - 48), rest2)
        else if fixed then none else some (c0.toNat - 48, rest)
    else none

/-- The call `time.Parse("15:04", value)` followed by `.Hour()` and
`.Minute()`: an hour of one or two digits below 24, a colon (code point 58), a
minute of exactly two digits below 60, and no trailing text; `none` is a parse
error. -/
def parseClock (value : String) : Option (Nat × Nat) :=
  match getnum value.data false with
  | none => none
  | some (hour, v1) =>
    if 24 ≤ hour then none
    else
      match v1 with
      | [] => none
      | c :: v2 =>
        if c.toNat = 58 then
          match getnum v2 true with
          | none => none
          | some (min, v3) =>
            if 60 ≤ min then none
            else if v3.isEmpty then some (hour, min) else none
        else none

/-- The instant `now.Truncate(24 * time.Hour)`.  Go rounds the absolute time
since the zero time down to a multiple of the duration, so the day of the
scheduler begins at midnight UTC. -/
def truncateDay (now : Time) : Time :=
  now - now % (24 * Hour)

/-- Offset of a parsed clock time from the start of the day:
`Duration(Hour())*time.Hour + Duration(Minute())*time.Minute`. -/
def clockOffset (hm : Nat × Nat) : Duration :=
  (hm.1 : Int) * Hour + (hm.2 : Int) * Minute

/-- The value of the local `withinSchedule` of `scheduleLoop`, lines 59-70, for
parsed start and end times and the instant `now`. -/
def withinSchedule (startTime endTime : Nat × Nat) (now : Time) : Bool :=
  let today := truncateDay now
  let scheduledStart := today + clockOffset startTime
  let scheduledEnd := today + clockOffset endTime
  let scheduledEnd :=
    if scheduledEnd < scheduledStart then scheduledEnd + 24 * Hour else scheduledEnd
  decide (scheduledStart < now) && decide (now < scheduledEnd)

/-- The record `Scheduler`; `timer` is the timer it points to. -/
structure Scheduler where
  config : Config
  timer : Timer
  active : Bool
  deriving DecidableEq, Repr

/-- The constructor `NewScheduler`. -/
def NewScheduler (cfg : Config) (t : Timer) : Scheduler :=
  { config := cfg, timer := t, active := false }

/-- The method `Scheduler.Start`, up to launching the loop. -/
def Scheduler.Start (s : Scheduler) : Scheduler :=
  if !s.config.ScheduleEnabled || s.active then s else { s with active := true }

/-- The method `Scheduler.Stop`. -/
def Scheduler.Stop (s : Scheduler) : Scheduler :=
  { s with active := false }

/-- A command the scheduler issues to its timer. -/
inductive Command where
  | Start
  | Stop
  deriving DecidableEq, Repr

/-- Result of one iteration of `scheduleLoop`: the scheduler (with its timer)
afterwards, the timer commands issued, and all effects in order. -/
structure Poll where
  sched : Scheduler
  commands : List Command
  effects : List Effect
  deriving DecidableEq, Repr

/-- The first conditional of the loop body (lines 72-75). -/
def Scheduler.startIfIdle (s : Scheduler) (within : Bool) (clock : Time) :
    Timer × List Command × List Effect :=
  if within && s.timer.GetState == StateIdle && !s.config.AlwaysOn then
    ((s.timer.Start clock).timer, [Command.Start], (s.timer.Start clock).effects)
  else (s.timer, [], [])

/-- The second conditional of the loop body (lines 77-83), on the timer `t` as
the first conditional left it. -/
def Scheduler.stopIfRunning (s : Scheduler) (within : Bool) (t : Timer) :
    Timer × List Command × List Effect :=
  if !within && t.GetState != StateIdle && !s.config.AlwaysOn then
    if t.GetState == StateWorking || t.GetState == StateWarning then
      (t.Stop.timer, [Command.Stop], t.Stop.effects)
    else (t, [], [])
  else (t, [], [])

/-- One iteration of the body of `scheduleLoop`.  `now` is the reading of
`time.Now()` at the top of the body and `clock` the instant at which a
`Timer.Start()` issued by this iteration reads the clock. -/
def Scheduler.scheduleLoopBody (s : Scheduler) (now clock : Time) : Poll :=
  match parseClock s.config.ScheduleStart with
  | none => { sched := s, commands := [], effects := [Effect.sleep Minute] }
  | some startTime =>
    match parseClock s.config.ScheduleEnd with
    | none => { sched := s, commands := [], effects := [Effect.sleep Minute] }
    | some endTime =>
      let within := withinSchedule startTime endTime now
      let r1 := s.startIfIdle within clock
      let r2 := s.stopIfRunning within r1.1
      { sched := { s with timer := r2.1 }
        commands := r1.2.1 ++ r2.2.1
        effects := r1.2.2 ++ r2.2.2 ++ [Effect.sleep Minute] }

/-- The loop `for s.active { .. }` of `scheduleLoop`, run for the given
iterations: each entry gives the reading of `time.Now()` at the top of that
iteration and the instant at which a `Timer.Start()` it issues reads the clock.
The loop ends when `active` is found false. -/
def Scheduler.scheduleLoop (s : Scheduler) : List (Time × Time) → Poll
  | [] => { sched := s, commands := [], effects := [] }
  | (now, clock) :: rest =>
    if s.active then
      { sched := (Scheduler.scheduleLoop (s.scheduleLoopBody now clock).sched rest).sched
        commands := (s.scheduleLoopBody now clock).commands ++
          (Scheduler.scheduleLoop (s.scheduleLoopBody now clock).sched rest).commands
        effects := (s.scheduleLoopBody now clock).effects ++
          (Scheduler.scheduleLoop (s.scheduleLoopBody now clock).sched rest).effects }
    else { sched := s, commands := [], effects := [] }

/-! ## Sample timers -/

/-- A timer with the default configuration in the given state, with a callback
registered. -/
def observedTimer (st : State) (used : Bool) : Timer :=
  { config := DefaultConfig, state := st, startTime := 0, extendUsed := used,
    onStateChange := true }

/-! ## Sample runs -/

/-- A fresh timer with the default configuration and a callback registered. -/
def freshTimer : Timer :=
  (NewTimer DefaultConfig).SetStateChangeCallback

/-- A whole work cycle after `Start()`: warning, extension, the superseded
work-complete callback, a second and a third attempt to extend, suspension,
break and the end of the break. -/
def sampleCycle : List (Time × Action) :=
  [(45 * Minute, Action.fire Handler.handleWarning),
   (46 * Minute, Action.Extend),
   (47 * Minute, Action.Extend),
   (50 * Minute, Action.fire Handler.handleWorkComplete),
   (51 * Minute, Action.fire Handler.handleExtendedWorkComplete),
   (51 * Minute + Second, Action.fire Handler.startBreak),
   (52 * Minute, Action.Extend),
   (61 * Minute + Second, Action.fire Handler.handleBreakComplete)]

/-- A work cycle brought to its warning phase: `Start()` and, 45 minutes later,
the `handleWarning` callback it requested. -/
def reachedWarning : List (Time × Action) :=
  [(0, Action.Start), (45 * Minute, Action.fire Handler.handleWarning)]

/-- A work cycle run to suspension and stopped during the settle delay, while
the `startBreak` callback requested by `suspendSystem` is still pending. -/
def stoppedWhileSuspended : List (Time × Action) :=
  [(0, Action.Start),
   (45 * Minute, Action.fire Handler.handleWarning),
   (50 * Minute, Action.fire Handler.handleWorkComplete),
   (50 * Minute + 500000000, Action.Stop)]

/-- A work cycle stopped after ten minutes and started again one minute later,
while the two callbacks requested by the first `Start()` are still pending. -/
def stoppedAndRestarted : List (Time × Action) :=
  [(0, Action.Start),
   (10 * Minute, Action.Stop),
   (11 * Minute, Action.Start)]

/-- A work cycle brought to its extension: `reachedWarning` followed, one minute
into the warning phase, by `Extend()`. -/
def reachedExtended : List (Time × Action) :=
  reachedWarning ++ [(46 * Minute, Action.Extend)]

/-- A work cycle without extension brought to its break: `reachedWarning`, then
the `handleWorkComplete` callback at minute 50 and the `startBreak` callback one
second later. -/
def reachedBreak : List (Time × Action) :=
  reachedWarning ++
    [(50 * Minute, Action.fire Handler.handleWorkComplete),
     (50 * Minute + Second, Action.fire Handler.startBreak)]

/-! ## Sample schedules -/

/-- The scheduler of the default configuration (window 09:00 to 18:00) over a
timer in the given state. -/
def dayScheduler (st : State) : Scheduler :=
  { config := DefaultConfig, timer := observedTimer st false, active := true }

/-- A configuration whose window spans midnight: 22:00 to 06:00. -/
def nightConfig : Config :=
  { DefaultConfig with ScheduleEnabled := true, ScheduleStart := "22:00", ScheduleEnd := "06:00" }

/-- The scheduler of `nightConfig` over a timer in the given state. -/
def nightScheduler (st : State) : Scheduler :=
  { config := nightConfig
    timer := { observedTimer st false with config := nightConfig }
    active := true }

/-- A scheduler whose start time is the malformed string 25:99. -/
def malformedScheduler (st : State) : Scheduler :=
  { config := { DefaultConfig with ScheduleEnabled := true, ScheduleStart := "25:99" }
    timer := observedTimer st false
    active := true }

/-- The instant `h` hours and `m` minutes into day number `day` after the zero
time. -/
def clockInstant (day : Int) (h m : Int) : Time :=
  day * (24 * Hour) + h * Hour + m * Minute

/-! ## Timed runs with a queue of delayed callbacks -/

/-- One entry of the history of a timed run: the instant, what happened, whether
it was an `Extend()` that returned true, and the state before and afterwards. -/
structure Entry where
  time : Time
  action : Action
  extended : Bool
  before : State
  state : State
  deriving DecidableEq, Repr

/-- A timer together with the delayed callbacks requested through
`time.AfterFunc` and not yet run, each with the instant at which it is due, and
the history of the run so far (oldest first). -/
structure World where
  timer : Timer
  pending : List (Time × Handler)
  history : List Entry
  deriving DecidableEq, Repr

/-- A timer with nothing pending and no history. -/
def World.new (t : Timer) : World :=
  { timer := t, pending := [], history := [] }

/-- Performing an action at instant `now`: the timer steps, the callbacks it
requests join the queue with their due instants, and the history grows. -/
def World.apply (w : World) (now : Time) (a : Action) : World :=
  { timer := (w.timer.step now a).timer
    pending := w.pending ++ scheduledAt now (w.timer.step now a).effects
    history := w.history ++
      [{ time := now, action := a, extended := (w.timer.step now a).extended,
         before := w.timer.state, state := (w.timer.step now a).timer.state }] }

/-- The instants at which a run made the transition to `StateSuspended`. -/
def suspendedAt (w : World) : List Time :=
  (w.history.filter fun en =>
    decide (en.before ≠ StateSuspended) && decide (en.state = StateSuspended)).map
      fun en => en.time

/-- The default configuration with an extension of two minutes, shorter than
the warning lead of five minutes. -/
def shortExtendConfig : Config :=
  { DefaultConfig with ExtendDuration := 2 * Minute }

/-- Invariant of a timed run of a work cycle started at instant `s` under `cfg`:
the timer keeps its configuration; a pending `handleWarning` is due no earlier
than `s + (WorkDuration - WarningTime)` and every other pending callback no
earlier than `s + WorkDuration`; and every transition to `StateSuspended` in the
history happened no earlier than `s + WorkDuration`. -/
def CycleInv (cfg : Config) (s : Time) (w : World) : Prop :=
  w.timer.config = cfg ∧
  (∀ p ∈ w.pending,
    (p.2 = Handler.handleWarning → s + (cfg.WorkDuration - cfg.WarningTime) ≤ p.1) ∧
    (p.2 ≠ Handler.handleWarning → s + cfg.WorkDuration ≤ p.1)) ∧
  (∀ en ∈ w.history, en.before ≠ StateSuspended → en.state = StateSuspended →
    s + cfg.WorkDuration ≤ en.time)

/-- A move of a timed run: a pending callback runs at some instant, or
`Extend()` is called at some instant. -/
inductive Move where
  | fire (p : Time × Handler) (now : Time)
  | extend (now : Time)
  deriving DecidableEq, Repr

/-- Playing a list of moves from the instant `clock`.  A callback may run only
while it is pending, no earlier than it is due and no earlier than the previous
move; `Extend()` may be called at any instant no earlier than the previous
move.  The result is `none` when a move is not allowed. -/
def World.play (w : World) (clock : Time) : List Move → Option World
  | [] => some w
  | Move.fire p now :: rest =>
    if p ∈ w.pending ∧ p.1 ≤ now ∧ clock ≤ now then
      World.play (World.apply { w with pending := w.pending.erase p } now (Action.fire p.2))
        now rest
    else none
  | Move.extend now :: rest =>
    if clock ≤ now then World.play (World.apply w now Action.Extend) now rest
    else none

/-- A cycle of the default configuration, started at instant 0, in which the
warning callback runs two seconds late, `Extend()` is called at minute 46 and
again at minute 48, and the remaining callbacks run at or after their due
instants. -/
def lateMoves : List Move :=
  [Move.fire (45 * Minute, Handler.handleWarning) (45 * Minute + 2 * Second),
   Move.extend (46 * Minute),
   Move.extend (48 * Minute),
   Move.fire (50 * Minute, Handler.handleWorkComplete) (50 * Minute),
   Move.fire (51 * Minute, Handler.handleExtendedWorkComplete) (51 * Minute + Second),
   Move.fire (51 * Minute + 2 * Second, Handler.startBreak) (51 * Minute + 2 * Second)]

/-- The world reached by `lateMoves` from a fresh timer started at instant 0. -/
def lateWorld : World :=
  ((World.apply (World.new freshTimer) 0 Action.Start).play 0 lateMoves).getD
    (World.new freshTimer)

/-- What may follow a successful extension without `Start()`: the superseded
work-complete callback, a rejected `Extend()`, the end of the extension, the
break, and a `Stop()`. -/
def afterExtension : List (Time × Action) :=
  [(50 * Minute, Action.fire Handler.handleWorkComplete),
   (50 * Minute + Second, Action.Extend),
   (51 * Minute, Action.fire Handler.handleExtendedWorkComplete),
   (51 * Minute + Second, Action.fire Handler.startBreak),
   (52 * Minute, Action.Stop)]

/-- A timer of `shortExtendConfig`, with a callback registered, right after
`Start()` at instant 0, with the two callbacks that call requested. -/
def shortExtendStart : World :=
  World.apply (World.new (NewTimer shortExtendConfig).SetStateChangeCallback) 0 Action.Start

/-- The cycle of `shortExtendStart` with `Extend()` called at minute 45, right
after the warning; every callback runs at its due instant. -/
def shortExtendMoves : List Move :=
  [Move.fire (45 * Minute, Handler.handleWarning) (45 * Minute),
   Move.extend (45 * Minute),
   Move.fire (47 * Minute, Handler.handleExtendedWorkComplete) (47 * Minute),
   Move.fire (47 * Minute + Second, Handler.startBreak) (47 * Minute + Second),
   Move.fire (50 * Minute, Handler.handleWorkComplete) (50 * Minute),
   Move.fire (57 * Minute + Second, Handler.handleBreakComplete) (57 * Minute + Second)]

/-- The same cycle with no `Extend()` call; every callback runs at its due
instant. -/
def plainMoves : List Move :=
  [Move.fire (45 * Minute, Handler.handleWarning) (45 * Minute),
   Move.fire (50 * Minute, Handler.handleWorkComplete) (50 * Minute),
   Move.fire (50 * Minute + Second, Handler.startBreak) (50 * Minute + Second),
   Move.fire (60 * Minute + Second, Handler.handleBreakComplete) (60 * Minute + Second)]

/-- A fresh timer of the default configuration started at instant 0, stopped at
minute 10 and started again at minute 11: the queue holds the two callbacks of
the first `Start()` as well as those of the second. -/
def restartedStart : World :=
  World.apply
    (World.apply (World.apply (World.new freshTimer) 0 Action.Start) (10 * Minute) Action.Stop)
    (11 * Minute) Action.Start

/-- In the restarted cycle the warning callback of the first cycle runs at
minute 45, `Extend()` is called at minute 46, and the work-complete callback of
the first cycle and the extension callback run at their due instants. -/
def staleMoves : List Move :=
  [Move.fire (45 * Minute, Handler.handleWarning) (45 * Minute),
   Move.extend (46 * Minute),
   Move.fire (50 * Minute, Handler.handleWorkComplete) (50 * Minute),
   Move.fire (51 * Minute, Handler.handleExtendedWorkComplete) (51 * Minute)]

/-! ## Reachable timers -/

/-- Anything that can be done to a timer through its public surface or by the
runtime: an action at some instant, or registering a state-change callback. -/
inductive Op where
  | act (now : Time) (a : Action)
  | register
  deriving DecidableEq, Repr

/-- Performing one operation. -/
def Timer.perform (t : Timer) : Op → Timer
  | Op.act now a => (t.step now a).timer
  | Op.register => t.SetStateChangeCallback

/-- The timer reached after a sequence of operations. -/
def Timer.afterOps (t : Timer) : List Op → Timer
  | [] => t
  | op :: rest => Timer.afterOps (t.perform op) rest

/-- A run to the extended state: registration, `Start()`, the warning callback
and `Extend()`. -/
def opsToExtended : List Op :=
  [Op.register, Op.act 0 Action.Start,
   Op.act (45 * Minute) (Action.fire Handler.handleWarning),
   Op.act (46 * Minute) Action.Extend]

/-! # Theorems -/

/-! ## Basic facts -/

theorem wrap64_of_inRange (x : Int) (h1 : minDuration ≤ x) (h2 : x ≤ maxDuration) :
    wrap64 x = x := by
  have h3 : (-9223372036854775808 : Int) ≤ x := h1
  have h4 : x ≤ (9223372036854775807 : Int) := h2
  show (x + 9223372036854775808) % 18446744073709551616 - 9223372036854775808 = x
  omega

theorem Since_self (t : Time) : Since t t = 0 := by
  simp [Since, minDuration, maxDuration]

theorem emit_stateChanges (t : Timer) (d : Duration) :
    stateChanges (t.emit d) = if t.onStateChange then [(t.state, d)] else [] := by
  unfold Timer.emit stateChanges
  cases t.onStateChange <;> simp

theorem emit_scheduled (t : Timer) (d : Duration) : scheduled (t.emit d) = [] := by
  unfold Timer.emit scheduled
  cases t.onStateChange <;> simp

theorem emit_execs (t : Timer) (d : Duration) : execs (t.emit d) = [] := by
  unfold Timer.emit execs
  cases t.onStateChange <;> simp

/-- Sample values of the parse of a clock time: two-digit and one-digit hours
are accepted; an hour of 24 or more, a minute of 60 or more, a missing colon, a
one-digit minute, trailing text and the empty string are errors. -/
theorem parseClock_samples :
    parseClock "09:00" = some (9, 0) ∧ parseClock "18:00" = some (18, 0) ∧
    parseClock "23:59" = some (23, 59) ∧ parseClock "9:05" = some (9, 5) ∧
    parseClock "25:99" = none ∧ parseClock "24:00" = none ∧ parseClock "12:60" = none ∧
    parseClock "0900" = none ∧ parseClock "09:5" = none ∧ parseClock "09:00 " = none ∧
    parseClock "" = none := by
  decide

/-- A step is flagged `started` only when it does what `Start()` does at that
instant. -/
theorem step_started_eq_Start (t : Timer) (now : Time) (a : Action)
    (h : (t.step now a).started = true) :
    (t.step now a).timer = (t.Start now).timer ∧
    (t.step now a).effects = (t.Start now).effects := by
  cases a with
  | Start => exact ⟨rfl, rfl⟩
  | Stop => simp [Timer.step] at h
  | Extend => simp [Timer.step] at h
  | fire hd =>
    simp only [Timer.step, Bool.and_eq_true, decide_eq_true_eq] at h
    obtain ⟨⟨h1, h2⟩, h3⟩ := h
    subst h1
    simp [Timer.step, Timer.fire, Timer.handleBreakComplete, h2, h3]

/-! ## Extend -/

/-- C1 (as stated, refuted): a timer made by `NewTimer`, on which no callback
was ever registered, is started and reaches `StateWarning` with the extension
unused; `Extend()` then returns true, yet no state-change is delivered: the
only effect is the `time.AfterFunc` request. -/
theorem C1_extend_without_callback_emits_nothing :
    ((NewTimer DefaultConfig).after reachedWarning).state = StateWarning ∧
    ((NewTimer DefaultConfig).after reachedWarning).extendUsed = false ∧
    ((NewTimer DefaultConfig).after reachedWarning).Extend.1 = true ∧
    ((NewTimer DefaultConfig).after reachedWarning).Extend.2.effects =
      [Effect.afterFunc (5 * Minute) Handler.handleExtendedWorkComplete] ∧
    stateChanges ((NewTimer DefaultConfig).after reachedWarning).Extend.2.effects = [] ∧
    ¬ stateChanges ((NewTimer DefaultConfig).after reachedWarning).Extend.2.effects =
        [(StateExtended, DefaultConfig.ExtendDuration)] := by
  decide

/-- C1 (amended): `Extend()` returns true exactly when the state is
`StateWarning` and the extension is unused; when it returns true the state
becomes `StateExtended`, `extendUsed` becomes true, exactly one delayed
`handleExtendedWorkComplete` is requested with delay `ExtendDuration`, and the
callback, when one is registered, receives exactly one state-change
`(StateExtended, ExtendDuration)`; with no callback none is delivered. -/
theorem C1_extend_contract (t : Timer) :
    (t.Extend.1 = true ↔ (t.state = StateWarning ∧ t.extendUsed = false)) ∧
    (t.Extend.1 = true →
      t.Extend.2.timer.state = StateExtended ∧
      t.Extend.2.timer.extendUsed = true ∧
      scheduled t.Extend.2.effects =
        [(t.config.ExtendDuration, Handler.handleExtendedWorkComplete)] ∧
      (t.onStateChange = true →
        stateChanges t.Extend.2.effects = [(StateExtended, t.config.ExtendDuration)]) ∧
      (t.onStateChange = false → stateChanges t.Extend.2.effects = [])) := by
  obtain ⟨cfg, st, start, used, cb⟩ := t
  cases used <;> cases st <;> cases cb <;>
    simp [Timer.Extend, Timer.emit, scheduled, stateChanges]

/-- Witness of C1 (amended) on a timer in `StateWarning` with a callback. -/
theorem C1_extend_contract_witness :
    (observedTimer StateWarning false).Extend.2.timer.state = StateExtended ∧
    (observedTimer StateWarning false).Extend.2.timer.extendUsed = true ∧
    scheduled (observedTimer StateWarning false).Extend.2.effects =
      [(5 * Minute, Handler.handleExtendedWorkComplete)] ∧
    stateChanges (observedTimer StateWarning false).Extend.2.effects =
      [(StateExtended, 5 * Minute)] :=
  have h := (C1_extend_contract (observedTimer StateWarning false)).2 (by decide)
  ⟨h.1, h.2.1, h.2.2.1, h.2.2.2.1 (by decide)⟩

/-- C2: in `StateIdle`, `StateWorking`, `StateExtended`, `StateBreak` and
`StateSuspended`, and in `StateWarning` with the extension already used,
`Extend()` returns false, leaves every field of the timer as it was and has no
effect at all (no state-change, no delayed callback). -/
theorem C2_extend_rejected_is_noop (t : Timer)
    (h : t.state = StateIdle ∨ t.state = StateWorking ∨ t.state = StateExtended ∨
      t.state = StateBreak ∨ t.state = StateSuspended ∨
      (t.state = StateWarning ∧ t.extendUsed = true)) :
    t.Extend.1 = false ∧ t.Extend.2.timer = t ∧ t.Extend.2.effects = [] := by
  obtain ⟨cfg, st, start, used, cb⟩ := t
  cases used <;> cases st <;> simp_all [Timer.Extend]

/-- Witness of C2 on a working timer. -/
theorem C2_extend_rejected_is_noop_witness :
    (observedTimer StateWorking false).Extend.1 = false ∧
    (observedTimer StateWorking false).Extend.2.timer = observedTimer StateWorking false ∧
    (observedTimer StateWorking false).Extend.2.effects = [] :=
  C2_extend_rejected_is_noop (observedTimer StateWorking false) (Or.inr (Or.inl rfl))

/-! ## One extension per work cycle -/

theorem extendCount_cons (s : Step) (tr : List Step) :
    extendCount (s :: tr) = (if s.extended then 1 else 0) + extendCount tr := by
  unfold extendCount
  cases h : s.extended <;> simp [List.filter_cons, h]
  omega

theorem startCount_cons (s : Step) (tr : List Step) :
    startCount (s :: tr) = (if s.started then 1 else 0) + startCount tr := by
  unfold startCount
  cases h : s.started <;> simp [List.filter_cons, h]
  omega

/-- A step in which `Start()` does not run keeps a timer that is neither working
nor in its warning phase out of both states, and is not a successful extension. -/
theorem step_outside_work (t : Timer) (now : Time) (a : Action)
    (hw : t.state ≠ StateWorking) (hn : t.state ≠ StateWarning)
    (hs : (t.step now a).started = false) :
    (t.step now a).timer.state ≠ StateWorking ∧
    (t.step now a).timer.state ≠ StateWarning ∧
    (t.step now a).extended = false := by
  obtain ⟨cfg, st, start, used, cb⟩ := t
  cases a with
  | Start => simp [Timer.step] at hs
  | Stop => simp [Timer.step, Timer.Stop]
  | Extend => cases used <;> cases st <;> simp_all [Timer.step, Timer.Extend]
  | fire h =>
    cases h <;> cases st <;> cases hA : cfg.AlwaysOn <;>
      simp_all [Timer.step, Timer.fire, Timer.handleWarning, Timer.handleWorkComplete,
        Timer.handleExtendedWorkComplete, Timer.suspendSystem, Timer.startBreak,
        Timer.handleBreakComplete, Timer.Start, Timer.Stop]

/-- Once the timer is neither working nor in its warning phase, no extension
succeeds until `Start()` runs again. -/
theorem trace_outside_work (seq : List (Time × Action)) :
    ∀ t : Timer, t.state ≠ StateWorking → t.state ≠ StateWarning →
      startCount (t.trace seq) = 0 → extendCount (t.trace seq) = 0 := by
  induction seq with
  | nil => intro t _ _ _; rfl
  | cons p rest ih =>
    intro t hw hn hs
    obtain ⟨now, a⟩ := p
    simp only [Timer.trace, startCount_cons] at hs
    have hst : (t.step now a).started = false := by
      cases h : (t.step now a).started
      · rfl
      · rw [h] at hs; simp at hs
    have hrest : startCount (Timer.trace (t.step now a).timer rest) = 0 := by omega
    obtain ⟨h1, h2, h3⟩ := step_outside_work t now a hw hn hst
    simp only [Timer.trace, extendCount_cons, h3]
    simpa using ih _ h1 h2 hrest

/-- A successful `Extend()` leaves the timer in `StateExtended`. -/
theorem step_extended_state (t : Timer) (now : Time) (a : Action)
    (h : (t.step now a).extended = true) :
    (t.step now a).timer.state = StateExtended := by
  obtain ⟨cfg, st, start, used, cb⟩ := t
  cases a with
  | Extend => cases used <;> cases st <;> simp_all [Timer.step, Timer.Extend]
  | Start => simp [Timer.step] at h
  | Stop => simp [Timer.step] at h
  | fire hd => simp [Timer.step] at h

/-- From any timer, a sequence of actions in which `Start()` never runs holds at
most one successful `Extend()`. -/
theorem trace_extend_le_one (seq : List (Time × Action)) :
    ∀ t : Timer, startCount (t.trace seq) = 0 → extendCount (t.trace seq) ≤ 1 := by
  induction seq with
  | nil => intro t _; simp [Timer.trace, extendCount]
  | cons p rest ih =>
    intro t hs
    obtain ⟨now, a⟩ := p
    simp only [Timer.trace, startCount_cons] at hs
    have hrest : startCount (Timer.trace (t.step now a).timer rest) = 0 := by omega
    simp only [Timer.trace, extendCount_cons]
    cases hx : (t.step now a).extended
    · have := ih _ hrest
      simpa using this
    · have hE := step_extended_state t now a hx
      have h0 := trace_outside_work rest (t.step now a).timer
        (by rw [hE]; decide) (by rw [hE]; decide) hrest
      simp [h0]

/-- C3: from the timer as any `Start()` at any instant leaves it, every finite
sequence of timed actions (`Extend()`, `Stop()` and firings of any of the five
delayed callbacks) in which the body of `Start()` never runs, neither through a
direct call nor through `handleBreakComplete` in always-on mode, contains at
most one `Extend()` call that returns true. -/
theorem C3_at_most_one_extend_per_cycle (t0 : Timer) (now0 : Time)
    (seq : List (Time × Action))
    (hno : startCount ((t0.Start now0).timer.trace seq) = 0) :
    extendCount ((t0.Start now0).timer.trace seq) ≤ 1 :=
  trace_extend_le_one seq (t0.Start now0).timer hno

/-- Witness of C3: in a full work cycle of the default configuration with three
`Extend()` calls, `Start()` never runs again and one call succeeds. -/
theorem C3_at_most_one_extend_per_cycle_witness :
    startCount ((freshTimer.Start 0).timer.trace sampleCycle) = 0 ∧
    extendCount ((freshTimer.Start 0).timer.trace sampleCycle) ≤ 1 :=
  ⟨by decide, C3_at_most_one_extend_per_cycle freshTimer 0 sampleCycle (by decide)⟩

/-! ## Start -/

/-- C4 (as stated, refuted): the default configuration is valid, and `Start()`
on a new timer, whose callback is still nil, delivers no state-change. -/
theorem C4_start_without_callback_emits_nothing :
    DefaultConfig.Valid ∧
    ((NewTimer DefaultConfig).Start 1000).timer.state = StateWorking ∧
    stateChanges ((NewTimer DefaultConfig).Start 1000).effects = [] ∧
    ¬ stateChanges ((NewTimer DefaultConfig).Start 1000).effects =
        [(StateWorking, DefaultConfig.WorkDuration)] := by
  decide

/-- C4 (amended): for a valid configuration and any prior timer, `Start()` at
instant `now` leaves the state `StateWorking`, `startTime = now` and
`extendUsed = false`; it requests exactly `handleWarning`, due at
`now + (WorkDuration - WarningTime)`, and `handleWorkComplete`, due at
`now + WorkDuration`; `GetRemainingTime()` at `now` is `WorkDuration`; and the
callback, when one is registered, receives exactly one state-change
`(StateWorking, WorkDuration)`, while with no callback none is delivered. -/
theorem C4_start_contract (t : Timer) (now : Time) (hv : t.config.Valid) :
    (t.Start now).timer.state = StateWorking ∧
    (t.Start now).timer.startTime = now ∧
    (t.Start now).timer.extendUsed = false ∧
    scheduledAt now (t.Start now).effects =
      [(now + (t.config.WorkDuration - t.config.WarningTime), Handler.handleWarning),
       (now + t.config.WorkDuration, Handler.handleWorkComplete)] ∧
    (t.Start now).timer.GetRemainingTime now = t.config.WorkDuration ∧
    (t.onStateChange = true →
      stateChanges (t.Start now).effects = [(StateWorking, t.config.WorkDuration)]) ∧
    (t.onStateChange = false → stateChanges (t.Start now).effects = []) := by
  obtain ⟨hw0, hw1, _, _, hn0, hn1, _, _, hlt⟩ := hv
  unfold maxDuration at hw1 hn1
  have hwrapW : wrap64 (t.config.WorkDuration - t.config.WarningTime) =
      t.config.WorkDuration - t.config.WarningTime :=
    wrap64_of_inRange _ (by unfold minDuration; linarith) (by unfold maxDuration; linarith)
  have hwrap0 : wrap64 t.config.WorkDuration = t.config.WorkDuration :=
    wrap64_of_inRange _ (by unfold minDuration; linarith) (by unfold maxDuration; linarith)
  refine ⟨rfl, rfl, rfl, ?_, ?_, ?_, ?_⟩
  · have h1 : ¬ t.config.WorkDuration - t.config.WarningTime ≤ 0 := by linarith
    have h2 : ¬ t.config.WorkDuration ≤ 0 := by linarith
    cases hcb : t.onStateChange <;>
      simp [Timer.Start, Timer.emit, scheduledAt, scheduled, dueAt, hcb, hwrapW, h1, h2]
  · simp [Timer.Start, Timer.GetRemainingTime, Since_self, hwrap0]
  · intro hcb
    simp [Timer.Start, Timer.emit, stateChanges, hcb]
  · intro hcb
    simp [Timer.Start, Timer.emit, stateChanges, hcb]

/-- Witness of C4 (amended): a fresh timer with a callback, started at instant
1000 under the default configuration. -/
theorem C4_start_contract_witness :
    DefaultConfig.Valid ∧
    (freshTimer.Start 1000).timer.state = StateWorking ∧
    scheduledAt 1000 (freshTimer.Start 1000).effects =
      [(1000 + (freshTimer.config.WorkDuration - freshTimer.config.WarningTime),
          Handler.handleWarning),
       (1000 + freshTimer.config.WorkDuration, Handler.handleWorkComplete)] ∧
    (freshTimer.Start 1000).timer.GetRemainingTime 1000 = freshTimer.config.WorkDuration ∧
    stateChanges (freshTimer.Start 1000).effects =
      [(StateWorking, freshTimer.config.WorkDuration)] :=
  have h := C4_start_contract freshTimer 1000 (by decide)
  ⟨by decide, h.1, h.2.2.2.1, h.2.2.2.2.1, h.2.2.2.2.2.1 (by decide)⟩

/-! ## Stop and stale callbacks -/

/-- C5 (as stated, refuted): two runs of a fresh timer under the default
configuration.  In the first, `Stop()` is called during the settle delay after
suspension; the `startBreak` callback requested one second earlier then fires
on an idle timer and moves it to `StateBreak`, with a state-change and a new
delayed callback.  In the second, the timer is stopped and started again; the
`handleWarning` and `handleWorkComplete` callbacks requested by the first
`Start()` then fire in the new cycle and move it to `StateWarning`, or suspend
it, 34 and 39 minutes into that cycle. -/
theorem C5_stale_callbacks_after_stop_still_act :
    ((freshTimer.trace stoppedWhileSuspended).map fun s => scheduled s.effects) =
      [[(45 * Minute, Handler.handleWarning), (50 * Minute, Handler.handleWorkComplete)],
       [], [(Second, Handler.startBreak)], []] ∧
    (freshTimer.after stoppedWhileSuspended).state = StateIdle ∧
    ((freshTimer.after stoppedWhileSuspended).fire (50 * Minute + Second)
        Handler.startBreak).timer.state = StateBreak ∧
    ((freshTimer.after stoppedWhileSuspended).fire (50 * Minute + Second)
        Handler.startBreak).effects =
      [Effect.stateChange StateBreak (10 * Minute),
       Effect.afterFunc (10 * Minute) Handler.handleBreakComplete] ∧
    (freshTimer.after stoppedAndRestarted).state = StateWorking ∧
    (freshTimer.after stoppedAndRestarted).startTime = 11 * Minute ∧
    ((freshTimer.after stoppedAndRestarted).fire (45 * Minute)
        Handler.handleWarning).timer.state = StateWarning ∧
    ((freshTimer.after stoppedAndRestarted).fire (45 * Minute)
        Handler.handleWarning).effects =
      [Effect.exec Exec.notifyWarning, Effect.stateChange StateWarning (5 * Minute)] ∧
    ((freshTimer.after stoppedAndRestarted).fire (50 * Minute)
        Handler.handleWorkComplete).timer.state = StateSuspended := by
  decide

/-- C5 (amended): `Stop()` from any state sets the state to `StateIdle` and
`extendUsed` to false.  On the stopped timer the firing of `handleWarning`,
`handleWorkComplete`, `handleExtendedWorkComplete` or `handleBreakComplete`, at
any instant, changes no field and has no effect.  When a new `Start()` has been
issued in between, `handleExtendedWorkComplete` and `handleBreakComplete` fired
on the timer as that `Start()` left it are still without any change or effect. -/
theorem C5_stop_neutralizes_guarded_callbacks (t : Timer) (now : Time) (h : Handler)
    (hh : h ≠ Handler.startBreak) :
    t.Stop.timer.state = StateIdle ∧
    t.Stop.timer.extendUsed = false ∧
    t.Stop.timer.fire now h = { timer := t.Stop.timer, effects := [] } ∧
    ∀ restart : Time,
      h = Handler.handleExtendedWorkComplete ∨ h = Handler.handleBreakComplete →
      (t.Stop.timer.Start restart).timer.fire now h =
        { timer := (t.Stop.timer.Start restart).timer, effects := [] } := by
  refine ⟨rfl, rfl, ?_, ?_⟩
  · cases h <;>
      simp_all [Timer.fire, Timer.Stop, Timer.handleWarning, Timer.handleWorkComplete,
        Timer.handleExtendedWorkComplete, Timer.handleBreakComplete]
  · intro restart hcase
    rcases hcase with rfl | rfl <;>
      simp [Timer.fire, Timer.Stop, Timer.Start, Timer.handleExtendedWorkComplete,
        Timer.handleBreakComplete]

/-- Witness of C5 (amended): the stale `handleWorkComplete` of a timer stopped
while in its warning phase. -/
theorem C5_stop_neutralizes_guarded_callbacks_witness :
    (observedTimer StateWarning false).Stop.timer.state = StateIdle ∧
    (observedTimer StateWarning false).Stop.timer.fire (50 * Minute)
        Handler.handleWorkComplete =
      { timer := (observedTimer StateWarning false).Stop.timer, effects := [] } :=
  have h := C5_stop_neutralizes_guarded_callbacks (observedTimer StateWarning false)
    (50 * Minute) Handler.handleWorkComplete (by decide)
  ⟨h.1, h.2.2.1⟩

/-! ## End of the break -/

/-- C6: when `handleBreakComplete` fires at instant `now` in `StateBreak`, then
in always-on mode the timer is in `StateWorking` with `extendUsed = false` and
`startTime = now`, and a new `handleWarning` and a new `handleWorkComplete` have
been requested, exactly as by `Start()`; otherwise the timer is in `StateIdle`
with `extendUsed = false`.  In any state other than `StateBreak` the firing
changes no field and has no effect. -/
theorem C6_break_complete (t : Timer) (now : Time) :
    (t.state = StateBreak → t.config.AlwaysOn = true →
      (t.handleBreakComplete now).timer.state = StateWorking ∧
      (t.handleBreakComplete now).timer.extendUsed = false ∧
      (t.handleBreakComplete now).timer.startTime = now ∧
      t.handleBreakComplete now = t.Start now ∧
      scheduled (t.handleBreakComplete now).effects =
        [(wrap64 (t.config.WorkDuration - t.config.WarningTime), Handler.handleWarning),
         (t.config.WorkDuration, Handler.handleWorkComplete)]) ∧
    (t.state = StateBreak → t.config.AlwaysOn = false →
      (t.handleBreakComplete now).timer.state = StateIdle ∧
      (t.handleBreakComplete now).timer.extendUsed = false) ∧
    (t.state ≠ StateBreak →
      t.handleBreakComplete now = { timer := t, effects := [] }) := by
  refine ⟨?_, ?_, ?_⟩
  · intro hs ha
    have hEq : t.handleBreakComplete now = t.Start now := by
      simp [Timer.handleBreakComplete, hs, ha]
    rw [hEq]
    refine ⟨rfl, rfl, rfl, rfl, ?_⟩
    cases hcb : t.onStateChange <;> simp [Timer.Start, Timer.emit, scheduled, hcb]
  · intro hs ha
    have hEq : t.handleBreakComplete now = t.Stop := by
      simp [Timer.handleBreakComplete, hs, ha]
    rw [hEq]
    exact ⟨rfl, rfl⟩
  · intro hs
    simp [Timer.handleBreakComplete, hs]

/-- Witness of C6: the end of a break that began at minute 51, with and
without always-on mode, and a stale firing on a working timer. -/
theorem C6_break_complete_witness :
    ((({ observedTimer StateBreak true with
          config := { DefaultConfig with AlwaysOn := true } } : Timer).handleBreakComplete
        (61 * Minute)).timer.state = StateWorking ∧
      (({ observedTimer StateBreak true with
          config := { DefaultConfig with AlwaysOn := true } } : Timer).handleBreakComplete
        (61 * Minute)).timer.extendUsed = false ∧
      (({ observedTimer StateBreak true with
          config := { DefaultConfig with AlwaysOn := true } } : Timer).handleBreakComplete
        (61 * Minute)).timer.startTime = 61 * Minute) ∧
    (((observedTimer StateBreak true).handleBreakComplete (61 * Minute)).timer.state =
        StateIdle ∧
      ((observedTimer StateBreak true).handleBreakComplete (61 * Minute)).timer.extendUsed =
        false) ∧
    (observedTimer StateWorking false).handleBreakComplete (61 * Minute) =
      { timer := observedTimer StateWorking false, effects := [] } :=
  have h := (C6_break_complete
      ({ observedTimer StateBreak true with
          config := { DefaultConfig with AlwaysOn := true } } : Timer)
      (61 * Minute)).1 rfl rfl
  ⟨⟨h.1, h.2.1, h.2.2.1⟩,
   (C6_break_complete (observedTimer StateBreak true) (61 * Minute)).2.1 rfl rfl,
   (C6_break_complete (observedTimer StateWorking false) (61 * Minute)).2.2 (by decide)⟩

/-! ## The warning callback -/

/-- C7: `handleWarning` acts only in `StateWorking`: there it moves the timer to
`StateWarning`, runs the warning notification once and, through the callback
when one is registered, emits the state-change `(StateWarning, WarningTime)`
once; in every other state it changes no field and has no effect.  Hence a
second firing right after the first changes nothing and has no effect: two
firings yield the timer and the effects of one. -/
theorem C7_warning_guarded_idempotent (t : Timer) :
    (t.state = StateWorking →
      t.handleWarning.timer = { t with state := StateWarning } ∧
      execs t.handleWarning.effects = [Exec.notifyWarning] ∧
      stateChanges t.handleWarning.effects =
        (if t.onStateChange then [(StateWarning, t.config.WarningTime)] else []) ∧
      scheduled t.handleWarning.effects = []) ∧
    (t.state ≠ StateWorking → t.handleWarning = { timer := t, effects := [] }) ∧
    t.handleWarning.timer.handleWarning.timer = t.handleWarning.timer ∧
    t.handleWarning.effects ++ t.handleWarning.timer.handleWarning.effects =
      t.handleWarning.effects := by
  obtain ⟨cfg, st, start, used, cb⟩ := t
  cases st <;> cases cb <;>
    simp [Timer.handleWarning, Timer.emit, execs, stateChanges, scheduled]

/-- Witness of C7: the warning callback on a working timer, on an idle one, and
twice in a row. -/
theorem C7_warning_guarded_idempotent_witness :
    ((observedTimer StateWorking false).handleWarning.timer =
        { observedTimer StateWorking false with state := StateWarning } ∧
      execs (observedTimer StateWorking false).handleWarning.effects =
        [Exec.notifyWarning] ∧
      stateChanges (observedTimer StateWorking false).handleWarning.effects =
        [(StateWarning, 5 * Minute)]) ∧
    (observedTimer StateIdle false).handleWarning =
      { timer := observedTimer StateIdle false, effects := [] } ∧
    (observedTimer StateWorking false).handleWarning.timer.handleWarning.timer =
      (observedTimer StateWorking false).handleWarning.timer :=
  have h := (C7_warning_guarded_idempotent (observedTimer StateWorking false)).1 rfl
  ⟨⟨h.1, h.2.1, h.2.2.1⟩,
   (C7_warning_guarded_idempotent (observedTimer StateIdle false)).2.1 (by decide),
   (C7_warning_guarded_idempotent (observedTimer StateWorking false)).2.2.1⟩

/-! ## Scheduler -/

/-- C8: with both schedule strings parsed, one iteration of the loop body issues
at most one timer command.  It calls `Start()` exactly when `withinSchedule`
holds, the timer is idle and always-on is off, and the timer is then as
`Start()` leaves it; it calls `Stop()` exactly when `withinSchedule` fails, the
timer is in `StateWorking` or `StateWarning` and always-on is off, and the timer
is then as `Stop()` leaves it; with no command the timer is untouched and the
iteration only sleeps.  In `StateExtended`, `StateBreak` and `StateSuspended`,
and whenever always-on is set, no command is issued. -/
theorem C8_poll_decision (s : Scheduler) (now clock : Time) (startTime endTime : Nat × Nat)
    (hs : parseClock s.config.ScheduleStart = some startTime)
    (he : parseClock s.config.ScheduleEnd = some endTime) :
    (s.scheduleLoopBody now clock).commands.length ≤ 1 ∧
    (Command.Start ∈ (s.scheduleLoopBody now clock).commands ↔
      (withinSchedule startTime endTime now = true ∧ s.timer.state = StateIdle ∧
        s.config.AlwaysOn = false)) ∧
    (Command.Stop ∈ (s.scheduleLoopBody now clock).commands ↔
      (withinSchedule startTime endTime now = false ∧
        (s.timer.state = StateWorking ∨ s.timer.state = StateWarning) ∧
        s.config.AlwaysOn = false)) ∧
    (Command.Start ∈ (s.scheduleLoopBody now clock).commands →
      (s.scheduleLoopBody now clock).sched.timer = (s.timer.Start clock).timer) ∧
    (Command.Stop ∈ (s.scheduleLoopBody now clock).commands →
      (s.scheduleLoopBody now clock).sched.timer = s.timer.Stop.timer) ∧
    ((s.scheduleLoopBody now clock).commands = [] →
      (s.scheduleLoopBody now clock).sched = s ∧
      (s.scheduleLoopBody now clock).effects = [Effect.sleep Minute]) ∧
    (s.timer.state = StateExtended ∨ s.timer.state = StateBreak ∨
        s.timer.state = StateSuspended →
      (s.scheduleLoopBody now clock).commands = []) ∧
    (s.config.AlwaysOn = true → (s.scheduleLoopBody now clock).commands = []) := by
  obtain ⟨cfg, ⟨tcfg, st, start, used, cb⟩, active⟩ := s
  simp only at hs he
  simp only [Scheduler.scheduleLoopBody, hs, he]
  generalize withinSchedule startTime endTime now = w
  cases w <;> cases st <;> cases hA : cfg.AlwaysOn <;>
    simp [Scheduler.startIfIdle, Scheduler.stopIfRunning, Timer.GetState, Timer.Start,
      Timer.Stop, hA]

/-- Witness of C8: under the window 09:00 to 18:00 with always-on off, an idle
timer at 10:00 is started and a working timer at 20:00 is stopped. -/
theorem C8_poll_decision_witness :
    Command.Start ∈
      ((dayScheduler StateIdle).scheduleLoopBody (clockInstant 739556 10 0)
        (clockInstant 739556 10 0)).commands ∧
    Command.Stop ∈
      ((dayScheduler StateWorking).scheduleLoopBody (clockInstant 739556 20 0)
        (clockInstant 739556 20 0)).commands :=
  ⟨(C8_poll_decision (dayScheduler StateIdle) (clockInstant 739556 10 0)
      (clockInstant 739556 10 0) (9, 0) (18, 0) (by decide) (by decide)).2.1.mpr
      ⟨by decide, rfl, rfl⟩,
   (C8_poll_decision (dayScheduler StateWorking) (clockInstant 739556 20 0)
      (clockInstant 739556 20 0) (9, 0) (18, 0) (by decide) (by decide)).2.2.1.mpr
      ⟨by decide, Or.inl rfl, rfl⟩⟩

/-- For a window whose end lies before its start within the day,
`withinSchedule` holds exactly when the time of day of `now` is strictly after
the start: the part of the window after midnight is not covered. -/
theorem withinSchedule_spanning (startTime endTime : Nat × Nat) (now : Time)
    (hlt : clockOffset endTime < clockOffset startTime) (h0 : 0 ≤ clockOffset endTime) :
    withinSchedule startTime endTime now = true ↔
      clockOffset startTime < now % (24 * Hour) := by
  have hH : (24 * Hour : Int) = 86400000000000 := by decide
  have hmod : now % (24 * Hour) < 24 * Hour := Int.emod_lt_of_pos now (by rw [hH]; decide)
  unfold withinSchedule truncateDay
  have hif : (now - now % (24 * Hour) + clockOffset endTime <
      now - now % (24 * Hour) + clockOffset startTime) := by linarith
  simp only [hif, if_true, Bool.and_eq_true, decide_eq_true_eq]
  constructor
  · rintro ⟨h1, _⟩; linarith
  · intro h; constructor <;> linarith

/-- C9 (evaluation at the failing input): the strings 22:00 and 06:00 parse, and
for that window `withinSchedule` is true at 23:00 but false at 01:00 of the
following day; at 01:00 the iteration stops a working timer and does not start
an idle one. -/
theorem C9_midnight_window_closed_after_midnight :
    parseClock nightConfig.ScheduleStart = some (22, 0) ∧
    parseClock nightConfig.ScheduleEnd = some (6, 0) ∧
    withinSchedule (22, 0) (6, 0) (clockInstant 739556 23 0) = true ∧
    withinSchedule (22, 0) (6, 0) (clockInstant 739557 1 0) = false ∧
    ((nightScheduler StateWorking).scheduleLoopBody (clockInstant 739557 1 0)
        (clockInstant 739557 1 0)).commands = [Command.Stop] ∧
    ((nightScheduler StateIdle).scheduleLoopBody (clockInstant 739557 1 0)
        (clockInstant 739557 1 0)).commands = [] := by
  decide

/-- With a schedule string that does not parse, every iteration of the loop is
skipped: over any number of iterations the active loop issues no command,
leaves the scheduler and its timer as they were, and sleeps once per
iteration. -/
theorem scheduleLoop_malformed (ticks : List (Time × Time)) (s : Scheduler)
    (h : parseClock s.config.ScheduleStart = none ∨ parseClock s.config.ScheduleEnd = none)
    (ha : s.active = true) :
    s.scheduleLoop ticks =
      { sched := s, commands := [],
        effects := List.replicate ticks.length (Effect.sleep Minute) } := by
  have key : ∀ now clock, s.scheduleLoopBody now clock =
      { sched := s, commands := [], effects := [Effect.sleep Minute] } := by
    intro now clock
    unfold Scheduler.scheduleLoopBody
    rcases h with h | h
    · rw [h]
    · cases hstart : parseClock s.config.ScheduleStart with
      | none => rfl
      | some v => simp only [h]
  induction ticks with
  | nil => rfl
  | cons p rest ih =>
    obtain ⟨now, clock⟩ := p
    simp only [Scheduler.scheduleLoop, ha, if_true, key, ih, List.nil_append, List.length_cons,
      List.replicate_succ, List.singleton_append]

/-- C10: when the start or the end of the schedule does not parse, one
iteration of the loop body issues no timer command, leaves the scheduler, its
timer and its `active` flag exactly as they were, and only sleeps for a minute;
the body is a total function, so the iteration cannot fail.  The loop stays
active: run for any number of further iterations it keeps skipping, one sleep
per iteration, with no command and no change. -/
theorem C10_malformed_schedule_skips (s : Scheduler) (now clock : Time)
    (h : parseClock s.config.ScheduleStart = none ∨ parseClock s.config.ScheduleEnd = none) :
    (s.scheduleLoopBody now clock).commands = [] ∧
    (s.scheduleLoopBody now clock).sched = s ∧
    (s.scheduleLoopBody now clock).sched.timer = s.timer ∧
    (s.scheduleLoopBody now clock).sched.active = s.active ∧
    (s.scheduleLoopBody now clock).effects = [Effect.sleep Minute] ∧
    (s.active = true → ∀ ticks : List (Time × Time),
      ((s.scheduleLoopBody now clock).sched.scheduleLoop ticks).commands = [] ∧
      ((s.scheduleLoopBody now clock).sched.scheduleLoop ticks).sched = s ∧
      ((s.scheduleLoopBody now clock).sched.scheduleLoop ticks).effects =
        List.replicate ticks.length (Effect.sleep Minute)) := by
  have key : s.scheduleLoopBody now clock =
      { sched := s, commands := [], effects := [Effect.sleep Minute] } := by
    unfold Scheduler.scheduleLoopBody
    rcases h with h | h
    · rw [h]
    · cases hstart : parseClock s.config.ScheduleStart with
      | none => rfl
      | some v => simp only [h]
  rw [key]
  refine ⟨rfl, rfl, rfl, rfl, rfl, ?_⟩
  intro ha ticks
  rw [scheduleLoop_malformed ticks s h ha]
  exact ⟨rfl, rfl, rfl⟩

/-- Witness of C10: the start string 25:99 does not parse, and the iteration
over a working timer, far outside any window, does nothing but sleep. -/
theorem C10_malformed_schedule_skips_witness :
    parseClock (malformedScheduler StateWorking).config.ScheduleStart = none ∧
    ((malformedScheduler StateWorking).scheduleLoopBody (clockInstant 739556 20 0)
        (clockInstant 739556 20 0)).commands = [] ∧
    ((malformedScheduler StateWorking).scheduleLoopBody (clockInstant 739556 20 0)
        (clockInstant 739556 20 0)).sched = malformedScheduler StateWorking :=
  have h := C10_malformed_schedule_skips (malformedScheduler StateWorking)
    (clockInstant 739556 20 0) (clockInstant 739556 20 0) (Or.inl (by decide))
  ⟨by decide, h.1, h.2.1⟩

/-! ## Remaining time -/

/-- In `StateIdle` the remaining time is 0. -/
theorem GetRemainingTime_idle (t : Timer) (now : Time) (h : t.state = StateIdle) :
    t.GetRemainingTime now = 0 := by
  simp [Timer.GetRemainingTime, h]

/-- Outside `StateIdle`, and as long as the elapsed time and the result fit an
int64, the remaining time is the total of the state (the work duration in
`StateWorking` and `StateWarning`, the extend duration in `StateExtended`, the
break duration in `StateBreak`, zero in `StateSuspended`) minus the time elapsed
since `startTime`. -/
theorem GetRemainingTime_running (t : Timer) (now : Time) (total : Duration)
    (htotal :
      (t.state = StateWorking ∧ total = t.config.WorkDuration) ∨
      (t.state = StateWarning ∧ total = t.config.WorkDuration) ∨
      (t.state = StateExtended ∧ total = t.config.ExtendDuration) ∨
      (t.state = StateBreak ∧ total = t.config.BreakDuration) ∨
      (t.state = StateSuspended ∧ total = 0))
    (h1 : minDuration ≤ now - t.startTime) (h2 : now - t.startTime ≤ maxDuration)
    (h3 : minDuration ≤ total - (now - t.startTime))
    (h4 : total - (now - t.startTime) ≤ maxDuration) :
    t.GetRemainingTime now = total - (now - t.startTime) := by
  have hS : Since t.startTime now = now - t.startTime := by
    unfold Since
    rw [if_neg (not_lt.mpr h1), if_neg (not_lt.mpr h2)]
  have hw := wrap64_of_inRange _ h3 h4
  rcases htotal with ⟨hs, ht⟩ | ⟨hs, ht⟩ | ⟨hs, ht⟩ | ⟨hs, ht⟩ | ⟨hs, ht⟩ <;>
    simp [Timer.GetRemainingTime, hs, hS, ← ht, hw]

/-- `Extend()` never writes `startTime`: after a successful call the remaining
time is still measured from the instant of the last `Start()`. -/
theorem Extend_keeps_startTime (t : Timer) :
    t.Extend.2.timer.startTime = t.startTime := by
  unfold Timer.Extend
  split <;> rfl

/-- At the instant `startBreak` runs, the remaining time is the break duration
(for a break duration that is an int64). -/
theorem startBreak_remaining (t : Timer) (now : Time)
    (h1 : minDuration ≤ t.config.BreakDuration) (h2 : t.config.BreakDuration ≤ maxDuration) :
    (t.startBreak now).timer.GetRemainingTime now = t.config.BreakDuration := by
  simp [Timer.startBreak, Timer.GetRemainingTime, Since_self, wrap64_of_inRange _ h1 h2]

/-- C11 (evaluation at the failing input): under the default configuration a
timer is started at instant 0, warned at minute 45 and extended at minute 46;
`Extend()` returns true and the state is `StateExtended`, but `startTime` is
still 0, so `GetRemainingTime()` at minute 46 is 5 - 46 = -41 minutes and not
the extend duration of 5 minutes.  In the run without extension,
`GetRemainingTime()` at the instant the break is entered is the break
duration. -/
theorem C11_remaining_in_extended_counts_from_start :
    ((freshTimer.trace reachedExtended).map fun s => s.extended) = [false, false, true] ∧
    (freshTimer.after reachedExtended).state = StateExtended ∧
    (freshTimer.after reachedExtended).startTime = 0 ∧
    (freshTimer.after reachedExtended).config.ExtendDuration = 5 * Minute ∧
    (freshTimer.after reachedExtended).GetRemainingTime (46 * Minute) = -(41 * Minute) ∧
    ¬ (freshTimer.after reachedExtended).GetRemainingTime (46 * Minute) =
        (freshTimer.after reachedExtended).config.ExtendDuration ∧
    (freshTimer.after reachedBreak).state = StateBreak ∧
    (freshTimer.after reachedBreak).GetRemainingTime (50 * Minute + Second) =
      (freshTimer.after reachedBreak).config.BreakDuration := by
  decide

/-! ## Extension and the time of suspension -/

/-- Without `Start()`, a timer that is neither working nor in its warning phase
stays so over any sequence of actions. -/
theorem after_outside_work (seq : List (Time × Action)) :
    ∀ t : Timer, t.state ≠ StateWorking → t.state ≠ StateWarning →
      startCount (t.trace seq) = 0 →
      (t.after seq).state ≠ StateWorking ∧ (t.after seq).state ≠ StateWarning := by
  induction seq with
  | nil => intro t hw hn _; exact ⟨hw, hn⟩
  | cons p rest ih =>
    intro t hw hn hs
    obtain ⟨now, a⟩ := p
    simp only [Timer.trace, startCount_cons] at hs
    have hst : (t.step now a).started = false := by
      cases h : (t.step now a).started
      · rfl
      · rw [h] at hs; simp at hs
    have hrest : startCount (Timer.trace (t.step now a).timer rest) = 0 := by omega
    obtain ⟨h1, h2, _⟩ := step_outside_work t now a hw hn hst
    exact ih _ h1 h2 hrest

/-- After a successful `Extend()`, and until `Start()` runs again, the
`handleWorkComplete` callback requested by the earlier `Start()` changes no
field and has no effect, whenever it fires. -/
theorem workComplete_superseded (t : Timer) (seq : List (Time × Action))
    (hx : t.Extend.1 = true) (hs : startCount (t.Extend.2.timer.trace seq) = 0) :
    (t.Extend.2.timer.after seq).handleWorkComplete =
      { timer := t.Extend.2.timer.after seq, effects := [] } := by
  have hE : t.Extend.2.timer.state = StateExtended := (step_extended_state t 0 Action.Extend hx)
  obtain ⟨h1, h2⟩ := after_outside_work seq t.Extend.2.timer
    (by rw [hE]; decide) (by rw [hE]; decide) hs
  simp [Timer.handleWorkComplete, h1, h2]

/-- A successful `Extend()` at instant `e` with a positive extend duration
requests exactly one callback, `handleExtendedWorkComplete`, due at
`e + ExtendDuration`.  When the call comes no earlier than the warning of a
cycle started at `s`, that instant is no earlier than `s + WorkDuration` if the
extend duration is at least the warning time. -/
theorem extension_due (t : Timer) (s e : Time) (hx : t.Extend.1 = true)
    (hpos : 0 < t.config.ExtendDuration)
    (hwarn : s + (t.config.WorkDuration - t.config.WarningTime) ≤ e)
    (hge : t.config.WarningTime ≤ t.config.ExtendDuration) :
    scheduledAt e t.Extend.2.effects =
      [(e + t.config.ExtendDuration, Handler.handleExtendedWorkComplete)] ∧
    s + t.config.WorkDuration ≤ e + t.config.ExtendDuration := by
  constructor
  · obtain ⟨cfg, st, start, used, cb⟩ := t
    have hn : ¬ cfg.ExtendDuration ≤ 0 := not_le.mpr hpos
    cases used <;> cases st <;> cases cb <;>
      simp_all [Timer.Extend, Timer.emit, scheduledAt, scheduled, dueAt]
  · linarith

/-- C13 (evaluation at the failing input): the configuration with work 50,
warning 5 and extend 2 minutes is valid.  A cycle is started at instant 0; the
warning callback runs at minute 45 and `Extend()` is called, and returns true,
at that instant.  With every callback running at its due instant the timer is
suspended at minute 47, three minutes before `0 + WorkDuration`; the earlier
`handleWorkComplete` runs at minute 50, in `StateBreak`, and changes nothing.
The same cycle without `Extend()` is suspended at minute 50. -/
theorem C13_short_extension_suspends_early :
    shortExtendConfig.Valid ∧
    shortExtendStart.pending =
      [(45 * Minute, Handler.handleWarning), (50 * Minute, Handler.handleWorkComplete)] ∧
    ((shortExtendStart.play 0 shortExtendMoves).map fun w => w.history) =
      some
      [{ time := 0, action := Action.Start, extended := false,
         before := StateIdle, state := StateWorking },
       { time := 45 * Minute, action := Action.fire Handler.handleWarning,
         extended := false, before := StateWorking, state := StateWarning },
       { time := 45 * Minute, action := Action.Extend, extended := true,
         before := StateWarning, state := StateExtended },
       { time := 47 * Minute, action := Action.fire Handler.handleExtendedWorkComplete,
         extended := false, before := StateExtended, state := StateSuspended },
       { time := 47 * Minute + Second, action := Action.fire Handler.startBreak,
         extended := false, before := StateSuspended, state := StateBreak },
       { time := 50 * Minute, action := Action.fire Handler.handleWorkComplete,
         extended := false, before := StateBreak, state := StateBreak },
       { time := 57 * Minute + Second, action := Action.fire Handler.handleBreakComplete,
         extended := false, before := StateBreak, state := StateIdle }] ∧
    (shortExtendStart.play 0 shortExtendMoves).map suspendedAt = some [47 * Minute] ∧
    (shortExtendStart.play 0 plainMoves).map suspendedAt = some [50 * Minute] ∧
    47 * Minute < 0 + shortExtendConfig.WorkDuration := by
  decide

/-- Callbacks left armed by an earlier cycle suspend a restarted cycle early
even under the default configuration, whose extend duration equals the warning
time: after `Start()` at 0, `Stop()` at minute 10 and `Start()` at minute 11 the
queue holds four callbacks; the first cycle's warning runs at minute 45,
`Extend()` succeeds at minute 46, and the timer is suspended at minute 51, ten
minutes before `11 + WorkDuration`. -/
theorem restarted_cycle_suspends_early :
    DefaultConfig.Valid ∧
    DefaultConfig.WarningTime ≤ DefaultConfig.ExtendDuration ∧
    restartedStart.timer.startTime = 11 * Minute ∧
    restartedStart.pending =
      [(45 * Minute, Handler.handleWarning), (50 * Minute, Handler.handleWorkComplete),
       (56 * Minute, Handler.handleWarning), (61 * Minute, Handler.handleWorkComplete)] ∧
    ((restartedStart.play (11 * Minute) staleMoves).map fun w =>
        w.history.map fun en => (en.time, en.extended, en.state)) =
      some
      [(0, false, StateWorking), (10 * Minute, false, StateIdle),
       (11 * Minute, false, StateWorking), (45 * Minute, false, StateWarning),
       (46 * Minute, true, StateExtended), (50 * Minute, false, StateExtended),
       (51 * Minute, false, StateSuspended)] ∧
    (restartedStart.play (11 * Minute) staleMoves).map suspendedAt = some [51 * Minute] ∧
    51 * Minute < 11 * Minute + DefaultConfig.WorkDuration := by
  decide

/-! ## The reachable-state invariant -/

/-- One operation preserves: a used extension means the timer is extended,
suspended or on its break. -/
theorem perform_extendUsed_inv (t : Timer) (op : Op)
    (h : t.extendUsed = true →
      t.state = StateExtended ∨ t.state = StateSuspended ∨ t.state = StateBreak) :
    (t.perform op).extendUsed = true →
      (t.perform op).state = StateExtended ∨ (t.perform op).state = StateSuspended ∨
        (t.perform op).state = StateBreak := by
  obtain ⟨cfg, st, start, used, cb⟩ := t
  cases op with
  | register => simpa [Timer.perform, Timer.SetStateChangeCallback] using h
  | act now a =>
    cases a with
    | Start => simp [Timer.perform, Timer.step, Timer.Start]
    | Stop => simp [Timer.perform, Timer.step, Timer.Stop]
    | Extend =>
      cases used <;> cases st <;> simp_all [Timer.perform, Timer.step, Timer.Extend]
    | fire hd =>
      cases hd <;> cases used <;> cases st <;> cases hA : cfg.AlwaysOn <;>
        simp_all [Timer.perform, Timer.step, Timer.fire, Timer.handleWarning,
          Timer.handleWorkComplete, Timer.handleExtendedWorkComplete, Timer.suspendSystem,
          Timer.startBreak, Timer.handleBreakComplete, Timer.Start, Timer.Stop]

/-- Any sequence of operations preserves the same property. -/
theorem afterOps_extendUsed_inv (ops : List Op) :
    ∀ t : Timer,
      (t.extendUsed = true →
        t.state = StateExtended ∨ t.state = StateSuspended ∨ t.state = StateBreak) →
      (t.afterOps ops).extendUsed = true →
        (t.afterOps ops).state = StateExtended ∨ (t.afterOps ops).state = StateSuspended ∨
          (t.afterOps ops).state = StateBreak := by
  induction ops with
  | nil => intro t h; exact h
  | cons op rest ih =>
    intro t h
    exact ih (t.perform op) (perform_extendUsed_inv t op h)

/-- C14: in every timer reached from `NewTimer cfg` by a finite sequence of
`Start()`, `Stop()`, `Extend()`, callback firings (of any of the five delayed
callbacks, at any instants and in any order, stale ones included) and
registrations of a state-change callback, `extendUsed = true` implies that the
state is `StateExtended`, `StateSuspended` or `StateBreak`; equivalently
`extendUsed` is false in `StateIdle`, `StateWorking` and `StateWarning`; hence
on such a timer `Extend()` returns true exactly when the state is
`StateWarning`. -/
theorem C14_reachable_extendUsed_invariant (cfg : Config) (ops : List Op) :
    (((NewTimer cfg).afterOps ops).extendUsed = true →
      ((NewTimer cfg).afterOps ops).state = StateExtended ∨
      ((NewTimer cfg).afterOps ops).state = StateSuspended ∨
      ((NewTimer cfg).afterOps ops).state = StateBreak) ∧
    (((NewTimer cfg).afterOps ops).state = StateIdle ∨
      ((NewTimer cfg).afterOps ops).state = StateWorking ∨
      ((NewTimer cfg).afterOps ops).state = StateWarning →
      ((NewTimer cfg).afterOps ops).extendUsed = false) ∧
    (((NewTimer cfg).afterOps ops).Extend.1 = true ↔
      ((NewTimer cfg).afterOps ops).state = StateWarning) := by
  have hinv := afterOps_extendUsed_inv ops (NewTimer cfg) (by simp [NewTimer])
  generalize (NewTimer cfg).afterOps ops = t at hinv
  obtain ⟨c, st, start, used, cb⟩ := t
  cases used <;> cases st <;> simp_all [Timer.Extend]

/-- Witness of C14: after registration, `Start()`, the warning callback and
`Extend()` under the default configuration the extension is used and the timer
is extended; one step earlier, in its warning phase, `Extend()` returns true. -/
theorem C14_reachable_extendUsed_invariant_witness :
    ((NewTimer DefaultConfig).afterOps opsToExtended).extendUsed = true ∧
    (((NewTimer DefaultConfig).afterOps opsToExtended).state = StateExtended ∨
      ((NewTimer DefaultConfig).afterOps opsToExtended).state = StateSuspended ∨
      ((NewTimer DefaultConfig).afterOps opsToExtended).state = StateBreak) ∧
    ((NewTimer DefaultConfig).afterOps opsToExtended.dropLast).Extend.1 = true :=
  ⟨by decide,
   (C14_reachable_extendUsed_invariant DefaultConfig opsToExtended).1 (by decide),
   (C14_reachable_extendUsed_invariant DefaultConfig opsToExtended.dropLast).2.2.mpr
     (by decide)⟩

/-! ## Fresh cycles in which an extension does delay suspension -/

theorem dueAt_ge (now : Time) (d : Duration) : now ≤ dueAt now d := by
  unfold dueAt
  split
  · exact le_refl now
  · linarith

theorem scheduledAt_ge (now : Time) (es : List Effect) :
    ∀ q ∈ scheduledAt now es, now ≤ q.1 := by
  intro q hq
  unfold scheduledAt at hq
  obtain ⟨r, _, rfl⟩ := List.mem_map.mp hq
  exact dueAt_ge now r.1

theorem step_config (t : Timer) (now : Time) (a : Action) :
    (t.step now a).timer.config = t.config := by
  cases a with
  | Start => rfl
  | Stop => rfl
  | Extend => simp only [Timer.step, Timer.Extend]; split <;> rfl
  | fire h =>
    obtain ⟨cfg, st, start, used, cb⟩ := t
    cases h <;> cases st <;> cases hA : cfg.AlwaysOn <;>
      simp [Timer.step, Timer.fire, Timer.handleWarning, Timer.handleWorkComplete,
        Timer.handleExtendedWorkComplete, Timer.suspendSystem, Timer.startBreak,
        Timer.handleBreakComplete, Timer.Start, Timer.Stop, hA]

theorem fire_warning_schedules_nothing (t : Timer) (now : Time) :
    scheduledAt now (t.step now (Action.fire Handler.handleWarning)).effects = [] := by
  obtain ⟨cfg, st, start, used, cb⟩ := t
  cases st <;> cases cb <;>
    simp [Timer.step, Timer.fire, Timer.handleWarning, Timer.emit, scheduledAt, scheduled]

/-- Only `handleWorkComplete` and `handleExtendedWorkComplete` take a timer into
`StateSuspended`; in particular `handleWarning` does not. -/
theorem fire_enters_suspended (t : Timer) (now : Time) (h : Handler)
    (h1 : t.state ≠ StateSuspended)
    (h2 : (t.step now (Action.fire h)).timer.state = StateSuspended) :
    h ≠ Handler.handleWarning := by
  obtain ⟨cfg, st, start, used, cb⟩ := t
  cases h <;> cases st <;>
    simp_all [Timer.step, Timer.fire, Timer.handleWarning]

/-- A callback leaves the timer in `StateWarning` only if it was there already
or the callback is `handleWarning`. -/
theorem fire_state_warning (t : Timer) (now : Time) (h : Handler)
    (h2 : (t.step now (Action.fire h)).timer.state = StateWarning) :
    t.state = StateWarning ∨ h = Handler.handleWarning := by
  obtain ⟨cfg, st, start, used, cb⟩ := t
  cases h <;> cases st <;> cases hA : cfg.AlwaysOn <;>
    simp_all [Timer.step, Timer.fire, Timer.handleWarning, Timer.handleWorkComplete,
      Timer.handleExtendedWorkComplete, Timer.suspendSystem, Timer.startBreak,
      Timer.handleBreakComplete, Timer.Start, Timer.Stop]

/-- Running a pending callback at or after its due instant preserves the
invariant. -/
theorem apply_fire_inv (cfg : Config) (s : Time) (w : World) (p : Time × Handler)
    (now : Time) (hN : 0 < cfg.WarningTime) (hp : p ∈ w.pending) (hnow : p.1 ≤ now)
    (hinv : CycleInv cfg s w) :
    CycleInv cfg s
      (World.apply { w with pending := w.pending.erase p } now (Action.fire p.2)) := by
  obtain ⟨hc, hpend, hhist⟩ := hinv
  refine ⟨?_, ?_, ?_⟩
  · simp only [World.apply]
    rw [step_config]; exact hc
  · intro q hq
    simp only [World.apply, List.mem_append] at hq
    rcases hq with hq | hq
    · exact hpend q (List.mem_of_mem_erase hq)
    · by_cases hW : p.2 = Handler.handleWarning
      · rw [hW, fire_warning_schedules_nothing] at hq
        simp at hq
      · have h1 := (hpend p hp).2 hW
        have h2 := scheduledAt_ge now _ q hq
        constructor
        · intro _; linarith
        · intro _; linarith
  · intro en hen hb hst
    simp only [World.apply, List.mem_append, List.mem_singleton] at hen
    rcases hen with hen | hen
    · exact hhist en hen hb hst
    · subst hen
      simp only at hb hst ⊢
      have hW := fire_enters_suspended w.timer now p.2 hb hst
      have h1 := (hpend p hp).2 hW
      linarith

/-- The two callbacks requested by `Start()` under a valid configuration, with
their due instants. -/
theorem Start_scheduledAt (t : Timer) (now : Time) (hv : t.config.Valid) :
    scheduledAt now (t.Start now).effects =
      [(now + (t.config.WorkDuration - t.config.WarningTime), Handler.handleWarning),
       (now + t.config.WorkDuration, Handler.handleWorkComplete)] := by
  obtain ⟨hw0, hw1, _, _, hn0, hn1, _, _, hlt⟩ := hv
  unfold maxDuration at hw1 hn1
  have hwrapW : wrap64 (t.config.WorkDuration - t.config.WarningTime) =
      t.config.WorkDuration - t.config.WarningTime :=
    wrap64_of_inRange _ (by unfold minDuration; linarith) (by unfold maxDuration; linarith)
  have h1 : ¬ t.config.WorkDuration - t.config.WarningTime ≤ 0 := by linarith
  have h2 : ¬ t.config.WorkDuration ≤ 0 := by linarith
  cases hcb : t.onStateChange <;>
    simp [Timer.Start, Timer.emit, scheduledAt, scheduled, dueAt, hcb, hwrapW, h1, h2]

/-- The invariant holds right after `Start()` at `s`. -/
theorem start_inv (t : Timer) (s : Time) (hv : t.config.Valid) :
    CycleInv t.config s (World.apply (World.new t) s Action.Start) := by
  refine ⟨rfl, ?_, ?_⟩
  · intro p hp
    simp only [World.apply, World.new, List.nil_append, Timer.step] at hp
    rw [Start_scheduledAt t s hv] at hp
    simp only [List.mem_cons, List.mem_singleton, List.not_mem_nil, or_false] at hp
    rcases hp with rfl | rfl
    · exact ⟨fun _ => le_refl _, fun h => absurd rfl h⟩
    · exact ⟨fun h => (by cases h), fun _ => le_refl _⟩
  · intro en hen _ hst
    simp only [World.apply, World.new, List.nil_append, List.mem_singleton] at hen
    subst hen
    simp [Timer.step, Timer.Start] at hst

theorem Extend_true_state (t : Timer) (h : t.Extend.1 = true) :
    t.state = StateWarning := by
  obtain ⟨c, st, start, used, cb⟩ := t
  cases used <;> cases st <;> simp_all [Timer.Extend]

theorem Extend_false_effects (t : Timer) (h : ¬ t.Extend.1 = true) :
    t.Extend.2.effects = [] := by
  obtain ⟨c, st, start, used, cb⟩ := t
  cases used <;> cases st <;> simp_all [Timer.Extend]

theorem Extend_not_suspending (t : Timer) (h1 : t.state ≠ StateSuspended) :
    t.Extend.2.timer.state ≠ StateSuspended := by
  obtain ⟨c, st, start, used, cb⟩ := t
  cases used <;> cases st <;> simp_all [Timer.Extend]

/-- An `Extend()` call at `e` preserves the invariant when the extend duration
is positive and at least the warning time. -/
theorem extend_inv (cfg : Config) (s e : Time) (w : World)
    (hX : 0 < cfg.ExtendDuration) (hge : cfg.WarningTime ≤ cfg.ExtendDuration)
    (hinv : CycleInv cfg s w)
    (hwarn : w.timer.state = StateWarning → s + (cfg.WorkDuration - cfg.WarningTime) ≤ e) :
    CycleInv cfg s (World.apply w e Action.Extend) := by
  obtain ⟨hc, hpend, hhist⟩ := hinv
  refine ⟨?_, ?_, ?_⟩
  · simp only [World.apply]
    rw [step_config]; exact hc
  · intro q hq
    simp only [World.apply, List.mem_append] at hq
    rcases hq with hq | hq
    · exact hpend q hq
    · by_cases hx : w.timer.Extend.1 = true
      · have hb := hwarn (Extend_true_state w.timer hx)
        have hX2 : 0 < w.timer.config.ExtendDuration := by rw [hc]; exact hX
        have hd := (extension_due w.timer s e hx hX2 (by rw [hc]; exact hb)
          (by rw [hc]; exact hge)).1
        simp only [Timer.step] at hq
        rw [hd] at hq
        simp only [List.mem_singleton] at hq
        subst hq
        rw [hc]
        constructor
        · intro h; cases h
        · intro _; simp only; linarith
      · have hnil : w.timer.Extend.2.effects = [] := Extend_false_effects w.timer hx
        simp only [Timer.step, hnil] at hq
        simp [scheduledAt, scheduled] at hq
  · intro en hen hb hst
    simp only [World.apply, List.mem_append, List.mem_singleton] at hen
    rcases hen with hen | hen
    · exact hhist en hen hb hst
    · subst hen
      simp only [Timer.step] at hb hst
      exact absurd hst (Extend_not_suspending w.timer hb)

theorem Extend_state_warning (t : Timer) (h : t.Extend.2.timer.state = StateWarning) :
    t.state = StateWarning := by
  obtain ⟨c, st, start, used, cb⟩ := t
  cases used <;> cases st <;> simp_all [Timer.Extend]

/-- Any allowed play of moves preserves the invariant, when the extend duration
is positive and at least the warning time. -/
theorem play_inv (cfg : Config) (s : Time) (hN : 0 < cfg.WarningTime)
    (hX : 0 < cfg.ExtendDuration) (hge : cfg.WarningTime ≤ cfg.ExtendDuration)
    (moves : List Move) :
    ∀ (w : World) (clock : Time) (w' : World), CycleInv cfg s w →
      (w.timer.state = StateWarning → s + (cfg.WorkDuration - cfg.WarningTime) ≤ clock) →
      w.play clock moves = some w' → CycleInv cfg s w' := by
  induction moves with
  | nil =>
    intro w clock w' hinv _ hplay
    simp only [World.play, Option.some.injEq] at hplay
    rw [← hplay]; exact hinv
  | cons m rest ih =>
    intro w clock w' hinv hwarn hplay
    cases m with
    | fire p now =>
      simp only [World.play] at hplay
      split at hplay
      · rename_i hc
        obtain ⟨hp, hdue, hclock⟩ := hc
        refine ih _ now w' (apply_fire_inv cfg s w p now hN hp hdue hinv) ?_ hplay
        intro hst
        simp only [World.apply] at hst
        rcases fire_state_warning w.timer now p.2 hst with hold | hW
        · have := hwarn hold
          linarith
        · have := (hinv.2.1 p hp).1 hW
          linarith
      · cases hplay
    | extend now =>
      simp only [World.play] at hplay
      split at hplay
      · rename_i hclock
        have hw2 : w.timer.state = StateWarning →
            s + (cfg.WorkDuration - cfg.WarningTime) ≤ now := by
          intro hst
          have := hwarn hst
          linarith
        refine ih _ now w' (extend_inv cfg s now w hX hge hinv hw2) ?_ hplay
        intro hst
        simp only [World.apply, Timer.step] at hst
        exact hw2 (Extend_state_warning w.timer hst)
      · cases hplay

/-- A cycle with nothing left over from an earlier one: on a queue that holds
only what `Start()` at instant `s` requested, under a valid configuration whose
extend duration is at least the warning time, any allowed play of moves
(callbacks running at or after their due instants, in any order, and `Extend()`
calls at any instants) makes no transition to `StateSuspended` before
`s + WorkDuration`.  The hypothesis on the queue matters:
`restarted_cycle_suspends_early` is a run in which callbacks of an earlier cycle
are still pending and the bound fails. -/
theorem fresh_cycle_suspends_no_earlier (t0 : Timer) (s : Time) (moves : List Move)
    (w : World) (hv : t0.config.Valid)
    (hge : t0.config.WarningTime ≤ t0.config.ExtendDuration)
    (hplay : (World.apply (World.new t0) s Action.Start).play s moves = some w) :
    ∀ τ ∈ suspendedAt w, s + t0.config.WorkDuration ≤ τ := by
  have hN : 0 < t0.config.WarningTime := hv.2.2.2.2.1
  have hX : 0 < t0.config.ExtendDuration := hv.2.2.2.2.2.2.1
  have h0 := start_inv t0 s hv
  have h1 := play_inv t0.config s hN hX hge moves _ s w h0
    (by simp [World.apply, World.new, Timer.step, Timer.Start]) hplay
  intro τ hτ
  unfold suspendedAt at hτ
  obtain ⟨en, hen, rfl⟩ := List.mem_map.mp hτ
  rw [List.mem_filter] at hen
  obtain ⟨hmem, hcond⟩ := hen
  simp only [Bool.and_eq_true, decide_eq_true_eq] at hcond
  exact h1.2.2 en hmem hcond.1 hcond.2

/-- A sample of the two facts above: under the default configuration a fresh
cycle started at 0 with a late warning and two `Extend()` calls is suspended at
51 minutes and one second, after minute 50; and on the timer extended at minute
46 the work-complete callback does nothing even after the break has begun and
`Stop()` was called. -/
theorem fresh_cycle_sample :
    suspendedAt lateWorld = [51 * Minute + Second] ∧
    (0 : Time) + freshTimer.config.WorkDuration ≤ 51 * Minute + Second ∧
    ((freshTimer.after reachedWarning).Extend.2.timer.after afterExtension).handleWorkComplete =
      { timer := (freshTimer.after reachedWarning).Extend.2.timer.after afterExtension,
        effects := [] } :=
  ⟨by decide,
   fresh_cycle_suspends_no_earlier freshTimer 0 lateMoves lateWorld
     (by decide) (by decide) (by decide) (51 * Minute + Second) (by decide),
   workComplete_superseded (freshTimer.after reachedWarning) afterExtension
     (by decide) (by decide)⟩

end Pomoduru
